import Mathlib

set_option maxRecDepth 16384

/-!
# Verification of the AI Customer Agent OAuth server

A shallow embedding, in Lean 4, of the core logic of the `ai-customer-agent`
Express application (the full file, `server` with UI, is the authority; the
shorter early revision is noted where it differs): HMAC query verification,
the OAuth `/auth` and `/auth/callback` handlers, the in-memory token store,
and the customer-export endpoints (`/customers`, `/customers.csv`).

Byte strings are `List Nat` with every byte taken modulo 256 where it is
produced.  HMAC-SHA256 is implemented concretely (Node's `crypto` module is
standard HMAC-SHA256), so golden-vector statements evaluate inside Lean.
-/

/-! ## Bytes and hex -/

/-- One lowercase hex digit, as produced by Node's `digest("hex")`. -/
def hexDigitChar : Nat → Char
  | 0 => '0' | 1 => '1' | 2 => '2' | 3 => '3'
  | 4 => '4' | 5 => '5' | 6 => '6' | 7 => '7'
  | 8 => '8' | 9 => '9' | 10 => 'a' | 11 => 'b'
  | 12 => 'c' | 13 => 'd' | 14 => 'e' | 15 => 'f'
  | _ => '?'

/-- Lowercase hex rendering of a byte string (`Buffer.prototype.toString("hex")`,
also the output format of `digest("hex")`). -/
def bytesToHexList : List Nat → List Char
  | [] => []
  | b :: bs => hexDigitChar (b / 16) :: hexDigitChar (b % 16) :: bytesToHexList bs

def bytesToHex (bs : List Nat) : String := String.mk (bytesToHexList bs)

/-- Value of a hex character: digits, lowercase and uppercase letters, as
accepted by Node's hex decoder. -/
def hexVal (c : Char) : Option Nat :=
  if '0' ≤ c ∧ c ≤ '9' then some (c.toNat - '0'.toNat)
  else if 'a' ≤ c ∧ c ≤ 'f' then some (c.toNat - 'a'.toNat + 10)
  else if 'A' ≤ c ∧ c ≤ 'F' then some (c.toNat - 'A'.toNat + 10)
  else none

/-- `Buffer.from(s, "hex")`: decode hex two characters at a time, silently
truncating at the first character pair that is not valid hex (including an
odd trailing character).  Node never throws here. -/
def bufferFromHexList : List Char → List Nat
  | c1 :: c2 :: rest =>
    match hexVal c1, hexVal c2 with
    | some h, some l => (16 * h + l) :: bufferFromHexList rest
    | _, _ => []
  | _ => []

def bufferFromHex (s : String) : List Nat := bufferFromHexList s.data

/-- UTF-8 encoding of one code point. -/
def utf8Bytes (n : Nat) : List Nat :=
  if n < 128 then [n]
  else if n < 2048 then [192 + n / 64, 128 + n % 64]
  else if n < 65536 then [224 + n / 4096, 128 + (n / 64) % 64, 128 + n % 64]
  else [240 + n / 262144, 128 + (n / 4096) % 64, 128 + (n / 64) % 64, 128 + n % 64]

/-- The UTF-8 bytes of a string (`Buffer.from(s, "utf8")` / what Node hashes). -/
def strBytes (s : String) : List Nat := (s.data.map (fun c => utf8Bytes c.toNat)).flatten

/-! ## SHA-256

A direct transcription of FIPS 180-4, over `List Nat` bytes with explicit
`% 4294967296` where 32-bit words overflow. -/

def rotr32 (x n : Nat) : Nat := ((x >>> n) ||| (x <<< (32 - n))) % 4294967296

/-- The 64 SHA-256 round constants of FIPS 180-4, written in decimal. -/
def sha256K : List Nat :=
  [1116352408, 1899447441, 3049323471, 3921009573, 961987163, 1508970993,
   2453635748, 2870763221, 3624381080, 310598401, 607225278, 1426881987,
   1925078388, 2162078206, 2614888103, 3248222580, 3835390401, 4022224774,
   264347078, 604807628, 770255983, 1249150122, 1555081692, 1996064986,
   2554220882, 2821834349, 2952996808, 3210313671, 3336571891, 3584528711,
   113926993, 338241895, 666307205, 773529912, 1294757372, 1396182291,
   1695183700, 1986661051, 2177026350, 2456956037, 2730485921, 2820302411,
   3259730800, 3345764771, 3516065817, 3600352804, 4094571909, 275423344,
   430227734, 506948616, 659060556, 883997877, 958139571, 1322822218,
   1537002063, 1747873779, 1955562222, 2024104815, 2227730452, 2361852424,
   2428436474, 2756734187, 3204031479, 3329325298]

structure HashState where
  a : Nat
  b : Nat
  c : Nat
  d : Nat
  e : Nat
  f : Nat
  g : Nat
  h : Nat
deriving DecidableEq

/-- The SHA-256 initial hash values of FIPS 180-4, written in decimal. -/
def sha256Init : HashState :=
  ⟨1779033703, 3144134277, 1013904242, 2773480762,
   1359893119, 2600822924, 528734635, 1541459225⟩

/-- Big-endian 32-bit words from bytes. -/
def bytesToWords : List Nat → List Nat
  | b0 :: b1 :: b2 :: b3 :: rest =>
    (b0 * 16777216 + b1 * 65536 + b2 * 256 + b3) :: bytesToWords rest
  | _ => []

/-- Extend the 16 block words to the 64-word message schedule (`n` more). -/
def extendWords : Nat → List Nat → List Nat
  | 0, w => w
  | n + 1, w =>
    let i := w.length
    let w15 := w.getD (i - 15) 0
    let w2 := w.getD (i - 2) 0
    let s0 := rotr32 w15 7 ^^^ rotr32 w15 18 ^^^ (w15 >>> 3)
    let s1 := rotr32 w2 17 ^^^ rotr32 w2 19 ^^^ (w2 >>> 10)
    extendWords n (w ++ [(w.getD (i - 16) 0 + s0 + w.getD (i - 7) 0 + s1) % 4294967296])

def sha256Round (st : HashState) (kw : Nat × Nat) : HashState :=
  let s1 := rotr32 st.e 6 ^^^ rotr32 st.e 11 ^^^ rotr32 st.e 25
  let ch := (st.e &&& st.f) ^^^ ((st.e ^^^ 4294967295) &&& st.g)
  let t1 := (st.h + s1 + ch + kw.1 + kw.2) % 4294967296
  let s0 := rotr32 st.a 2 ^^^ rotr32 st.a 13 ^^^ rotr32 st.a 22
  let maj := (st.a &&& st.b) ^^^ (st.a &&& st.c) ^^^ (st.b &&& st.c)
  let t2 := (s0 + maj) % 4294967296
  ⟨(t1 + t2) % 4294967296, st.a, st.b, st.c, (st.d + t1) % 4294967296, st.e, st.f, st.g⟩

def sha256Compress (st : HashState) (block : List Nat) : HashState :=
  let w := extendWords 48 (bytesToWords block)
  let r := (sha256K.zip w).foldl (fun s kw => sha256Round s ⟨kw.2, kw.1⟩) st
  ⟨(st.a + r.a) % 4294967296, (st.b + r.b) % 4294967296,
   (st.c + r.c) % 4294967296, (st.d + r.d) % 4294967296,
   (st.e + r.e) % 4294967296, (st.f + r.f) % 4294967296,
   (st.g + r.g) % 4294967296, (st.h + r.h) % 4294967296⟩

/-- Big-endian 8-byte rendering of the bit length. -/
def lenBytes64 (n : Nat) : List Nat :=
  [(n >>> 56) % 256, (n >>> 48) % 256, (n >>> 40) % 256, (n >>> 32) % 256,
   (n >>> 24) % 256, (n >>> 16) % 256, (n >>> 8) % 256, n % 256]

def padMessage (msg : List Nat) : List Nat :=
  let len := msg.length
  let zeros := (64 - (len + 9) % 64) % 64
  msg ++ [128] ++ List.replicate zeros 0 ++ lenBytes64 (8 * len)

def chunks64 : Nat → List Nat → List (List Nat)
  | 0, _ => []
  | n + 1, l => l.take 64 :: chunks64 n (l.drop 64)

def wordBytes (w : Nat) : List Nat :=
  [(w >>> 24) % 256, (w >>> 16) % 256, (w >>> 8) % 256, w % 256]

def hashStateBytes (st : HashState) : List Nat :=
  wordBytes st.a ++ wordBytes st.b ++ wordBytes st.c ++ wordBytes st.d ++
  wordBytes st.e ++ wordBytes st.f ++ wordBytes st.g ++ wordBytes st.h

def sha256 (msg : List Nat) : List Nat :=
  let p := padMessage msg
  hashStateBytes ((chunks64 (p.length / 64) p).foldl sha256Compress sha256Init)

/-- HMAC-SHA256 (RFC 2104), block size 64, as in Node's
`crypto.createHmac("sha256", key)`. -/
def hmacSha256 (key msg : List Nat) : List Nat :=
  let k0 := if 64 < key.length then sha256 key else key
  let k1 := k0 ++ List.replicate (64 - k0.length) 0
  sha256 ((k1.map (fun b => b ^^^ 92)) ++ sha256 ((k1.map (fun b => b ^^^ 54)) ++ msg))

/-! ## Query strings and the HMAC verifier

Express parses each query parameter to a string, or to an array of strings
when the parameter repeats.  `JsVal.toStr` is JavaScript's string coercion
of such a value (`Array.prototype.toString` joins with commas). -/

inductive JsVal where
  | str (s : String)
  | arr (l : List String)
deriving DecidableEq

def JsVal.toStr : JsVal → String
  | .str s => s
  | .arr l => String.intercalate "," l

abbrev Query := List (String × JsVal)

/-- The query object minus the `hmac` and `signature` keys
(`const { hmac, signature, ...rest } = query`). -/
def queryRest (q : Query) : Query :=
  q.filter (fun p => p.1 != "hmac" && p.1 != "signature")

/-- Lexicographic comparison of character lists by code point — JavaScript's
default `sort()` comparison (code units) restricted to the query keys in
play. -/
def charsLt : List Char → List Char → Bool
  | [], [] => false
  | [], _ :: _ => true
  | _ :: _, [] => false
  | a :: as, b :: bs =>
    if a.toNat < b.toNat then true
    else if b.toNat < a.toNat then false
    else charsLt as bs

def strLt (s t : String) : Bool := charsLt s.data t.data

/-- Insert into a sorted list of keys. -/
def insertKey (s : String) : List String → List String
  | [] => [s]
  | t :: ts => if strLt t s then t :: insertKey s ts else s :: t :: ts

def sortKeys : List String → List String
  | [] => []
  | s :: ss => insertKey s (sortKeys ss)

/-- The canonical message of `verifyHmac`: the remaining keys sorted
ascending, each rendered `key=value` (arrays joined with commas), the pairs
joined with `&`. -/
def canonicalMessage (q : Query) : String :=
  let rest := queryRest q
  String.intercalate "&" ((sortKeys (rest.map Prod.fst)).map
    (fun k => k ++ "=" ++ (match rest.lookup k with
                           | some v => v.toStr
                           | none => "undefined")))

/-- `verifyHmac(query)` of the full server file: absent or empty `hmac` is
falsy and returns false; otherwise the HMAC-SHA256 hex digest of the
canonical message is compared, after hex decoding both sides, with an
explicit length check before the constant-time comparison (so the function
never throws). -/
def verifyHmac (secret : String) (query : Query) : Bool :=
  match query.lookup "hmac" with
  | none => false
  | some hv =>
    if hv = JsVal.str "" then false
    else
      let generated := bytesToHex (hmacSha256 (strBytes secret) (strBytes (canonicalMessage query)))
      let a := bufferFromHex generated
      let b := bufferFromHex hv.toStr
      if a.length = b.length then a == b else false

/-! ## The `/auth` handler -/

/-- The whitespace set of JavaScript's `String.prototype.trim` (ECMAScript
WhiteSpace and LineTerminator code points). -/
def isJsWhitespace (c : Char) : Bool :=
  let n := c.toNat
  n == 0x9 || n == 0xA || n == 0xB || n == 0xC || n == 0xD || n == 0x20 ||
  n == 0xA0 || n == 0x1680 || (Nat.ble 0x2000 n && Nat.ble n 0x200A) ||
  n == 0x2028 || n == 0x2029 || n == 0x202F || n == 0x205F || n == 0x3000 ||
  n == 0xFEFF

/-- `String.prototype.trim`: drop leading and trailing whitespace. -/
def jsTrim (s : String) : String :=
  String.mk (((s.data.dropWhile isJsWhitespace).reverse.dropWhile isJsWhitespace).reverse)

/-- `(req.query.shop || "").toString().trim()`, the shop normalization shared
by `/auth`, `/customers` and `/customers.csv`: an absent parameter defaults
to the empty string, the value is string-coerced, then trimmed. -/
def shopParam (q : Query) : String :=
  jsTrim (match q.lookup "shop" with
          | none => ""
          | some v => v.toStr)

/-- ASCII letter or digit. -/
def isAlnumChar (c : Char) : Bool :=
  (Nat.ble 97 c.toNat && Nat.ble c.toNat 122) ||
  (Nat.ble 65 c.toNat && Nat.ble c.toNat 90) ||
  (Nat.ble 48 c.toNat && Nat.ble c.toNat 57)

/-- `isValidShop`: the regex `^[a-zA-Z0-9][a-zA-Z0-9\-]*\.myshopify\.com$`.
Since the head character class excludes `.`, the literal `.myshopify.com` of
the pattern can only match the final 14 characters, so the regex accepts
exactly: a nonempty dot-free head of alphanumerics/hyphens starting with an
alphanumeric, followed by the suffix `.myshopify.com`. -/
def isValidShop (s : String) : Bool :=
  let cs := s.data
  let head := cs.take (cs.length - 14)
  (cs.drop (cs.length - 14) == ".myshopify.com".data) &&
  (match head with
   | [] => false
   | c :: rest => isAlnumChar c && rest.all (fun d => isAlnumChar d || d == '-'))

def upperHexDigit : Nat → Char
  | 0 => '0' | 1 => '1' | 2 => '2' | 3 => '3'
  | 4 => '4' | 5 => '5' | 6 => '6' | 7 => '7'
  | 8 => '8' | 9 => '9' | 10 => 'A' | 11 => 'B'
  | 12 => 'C' | 13 => 'D' | 14 => 'E' | 15 => 'F'
  | _ => '?'

/-- `encodeURIComponent`: unreserved characters pass through, everything else
is percent-encoded from its UTF-8 bytes. -/
def encodeURIComponent (s : String) : String :=
  String.mk ((s.data.map (fun c =>
    if isAlnumChar c || [ '-', '_', '.', '!', '~', '*', '\'', '(', ')' ].contains c then [c]
    else ((utf8Bytes c.toNat).map (fun b => ['%', upperHexDigit (b / 16), upperHexDigit (b % 16)])).flatten)).flatten)

/-- `buildInstallUrl`: the remote authorize URL.  `appUrl` stands for
`APP_URL`, the configured base URL with its trailing slash already removed. -/
def buildInstallUrl (apiKey scopes appUrl shop state : String) : String :=
  "https://" ++ shop ++ "/admin/oauth/authorize" ++
  "?client_id=" ++ apiKey ++
  "&scope=" ++ encodeURIComponent scopes ++
  "&redirect_uri=" ++ encodeURIComponent (appUrl ++ "/auth/callback") ++
  "&state=" ++ state

structure AuthResult where
  status : Nat
  /-- the `shopify_oauth_state` cookie value set by the response, if any -/
  cookie : Option String
  /-- the `Location` of the redirect, if any -/
  redirect : Option String
deriving DecidableEq

/-- The `GET /auth` handler.  `newState` stands for the fresh
`crypto.randomBytes(16).toString("hex")` value.  The shop parameter is
string-coerced, defaulted to the empty string, and trimmed before the
checks. -/
def authGet (apiKey scopes appUrl : String) (query : Query) (newState : String) : AuthResult :=
  let shop := shopParam query
  if shop = "" then ⟨400, none, none⟩
  else if isValidShop shop then
    ⟨302, some newState, some (buildInstallUrl apiKey scopes appUrl shop newState)⟩
  else ⟨400, none, none⟩

/-! ## Token store and the `/auth/callback` handler

`TOKENS` is a JavaScript `Map`.  The callback stores under the raw `shop`
query value; the data endpoints always look up a plain string, and string
keys compare by value, so a function map keyed by `JsVal` is observationally
equivalent (array keys are unreachable from string lookups either way). -/

def TokenMap : Type := JsVal → Option String

def tokensEmpty : TokenMap := fun _ => none

def tokensSet (m : TokenMap) (k : JsVal) (v : String) : TokenMap :=
  fun k' => if k' = k then some v else m k'

/-- The outcome of the `fetch` to the remote token endpoint:
a success response carrying `access_token`, a non-success HTTP response,
or a thrown network/parse error (caught by the handler's `try`). -/
inductive ExchangeOutcome where
  | ok (accessToken : String)
  | httpError (body : String)
  | netError (msg : String)
deriving DecidableEq

structure CallbackResult where
  status : Nat
  /-- whether the token-exchange POST was issued -/
  exchanged : Bool
  tokens : TokenMap
  redirect : Option String

/-- Truthiness of a query parameter (`!shop` etc.): absent and the empty
string are falsy; arrays are truthy. -/
def truthyParam (q : Query) (k : String) : Bool :=
  match q.lookup k with
  | none => false
  | some (JsVal.str s) => s != ""
  | some (JsVal.arr _) => true

/-- The state check of the callback:
`!cookieState || cookieState !== state` fails the request.  Strict equality
of the cookie string with the `state` query value holds only when the query
value is that same string (never for an array). -/
def stateCheckOk (q : Query) (cookie : Option String) : Bool :=
  match cookie with
  | none => false
  | some c => c != "" && (q.lookup "state" == some (JsVal.str c))

/-- The `GET /auth/callback` handler of the full server file: missing-param
check, state-cookie check, HMAC check, then the token exchange inside
`try`, storing the token and redirecting to the UI on success. -/
def authCallback (secret : String) (query : Query) (cookie : Option String)
    (exch : ExchangeOutcome) (tokens : TokenMap) : CallbackResult :=
  if truthyParam query "shop" && truthyParam query "code" && truthyParam query "state" then
    if stateCheckOk query cookie then
      if verifyHmac secret query then
        match exch with
        | .netError _ => ⟨500, true, tokens, none⟩
        | .httpError _ => ⟨500, true, tokens, none⟩
        | .ok tok =>
          let shopV := (query.lookup "shop").getD (JsVal.str "")
          ⟨302, true, tokensSet tokens shopV tok,
           some ("/?shop=" ++ encodeURIComponent shopV.toStr)⟩
      else ⟨400, false, tokens, none⟩
    else ⟨400, false, tokens, none⟩
  else ⟨400, false, tokens, none⟩

/-! ## Customer records, projection, CSV -/

/-- A JSON leaf value as it reaches the projection and the CSV writer:
null (or absent), a string, or an integer.  `render` is JavaScript's
`String(val)` on these. -/
inductive JVal where
  | jnull
  | jstr (s : String)
  | jnum (n : Int)
deriving DecidableEq

def JVal.render : JVal → String
  | .jnull => "null"
  | .jstr s => s
  | .jnum n => toString n

/-- One entry of a customer's `addresses` array; absent/null fields are
`none`. -/
structure Address where
  address1 : Option String
  address2 : Option String
  city : Option String
  province : Option String
  zip : Option String
  country : Option String
deriving DecidableEq

/-- `formatAddresses`: per address, keep the truthy parts (dropping null,
undefined and the empty string, as `filter(Boolean)` does), join them with
`", "`; join the addresses with `" | "`. -/
def formatAddresses (addresses : List Address) : String :=
  String.intercalate " | " (addresses.map (fun a =>
    String.intercalate ", "
      (([a.address1, a.address2, a.city, a.province, a.zip, a.country].filterMap id).filter
        (fun s => s != ""))))

/-- An upstream customer record, with the fields the projection reads. -/
structure Customer where
  id : JVal
  created_at : JVal
  updated_at : JVal
  first_name : JVal
  last_name : JVal
  orders_count : JVal
  state : JVal
  total_spent : JVal
  last_order_id : JVal
  note : JVal
  tags : JVal
  email : JVal
  phone : JVal
  currency : JVal
  addresses : List Address
deriving DecidableEq

/-- A projected record, as built by both data endpoints. -/
structure ProjectedCustomer where
  id : JVal
  created_at : JVal
  updated_at : JVal
  first_name : JVal
  last_name : JVal
  orders_count : JVal
  state : JVal
  total_spent : JVal
  last_order_id : JVal
  note : JVal
  tags : JVal
  email : JVal
  phone : JVal
  currency : JVal
  addresses : String
deriving DecidableEq

/-- The per-record map of the JSON endpoint (`GET /customers`). -/
def projectCustomerJson (c : Customer) : ProjectedCustomer :=
  ⟨c.id, c.created_at, c.updated_at, c.first_name, c.last_name, c.orders_count,
   c.state, c.total_spent, c.last_order_id, c.note, c.tags, c.email, c.phone,
   c.currency, formatAddresses c.addresses⟩

/-- The per-record map of the CSV endpoint (`GET /customers.csv`). -/
def projectCustomerCsv (c : Customer) : ProjectedCustomer :=
  ⟨c.id, c.created_at, c.updated_at, c.first_name, c.last_name, c.orders_count,
   c.state, c.total_spent, c.last_order_id, c.note, c.tags, c.email, c.phone,
   c.currency, formatAddresses c.addresses⟩

/-- The key/value pairs of a projected record, in the insertion order of the
object literal (what `Object.keys` returns for it). -/
def projectedRowPairs (p : ProjectedCustomer) : List (String × JVal) :=
  [("id", p.id), ("created_at", p.created_at), ("updated_at", p.updated_at),
   ("first_name", p.first_name), ("last_name", p.last_name),
   ("orders_count", p.orders_count), ("state", p.state),
   ("total_spent", p.total_spent), ("last_order_id", p.last_order_id),
   ("note", p.note), ("tags", p.tags), ("email", p.email), ("phone", p.phone),
   ("currency", p.currency), ("addresses", JVal.jstr p.addresses)]

/-- Double every double quote, as `replace(/"/g, '""')` does. -/
def doubleQuotesChars : List Char → List Char
  | [] => []
  | c :: cs => if c = '"' then '"' :: '"' :: doubleQuotesChars cs else c :: doubleQuotesChars cs

/-- The `escape` closure of `toCSV`: null/undefined become empty; a value
whose string form contains a comma, double quote or newline is wrapped in
double quotes with inner quotes doubled. -/
def escapeCSV : Option JVal → String
  | none => ""
  | some JVal.jnull => ""
  | some v =>
    let s := v.render
    if s.data.contains ',' || s.data.contains '"' || s.data.contains '\n' then
      "\"" ++ String.mk (doubleQuotesChars s.data) ++ "\""
    else s

/-- `toCSV(rows)`: empty input yields the empty string; otherwise the keys of
the first row are the header line and every row is rendered under those
headers (`row[h]` of a missing key is undefined, escaping to empty). -/
def toCSV (rows : List (List (String × JVal))) : String :=
  match rows with
  | [] => ""
  | r :: rs =>
    let headers := r.map Prod.fst
    String.intercalate "\n"
      (String.intercalate "," headers ::
        (r :: rs).map (fun row =>
          String.intercalate "," (headers.map (fun h => escapeCSV (row.lookup h)))))

/-! ## The data endpoints -/

/-- The upstream customers response after `r.json().catch(() => ({}))`:
`ok`/`status` from the HTTP response, `customers` already defaulted to `[]`
(`data.customers || []`), and `data?.errors` for the failure branch. -/
structure UpstreamResp where
  ok : Bool
  status : Nat
  customers : List Customer
  errors : Option String
deriving DecidableEq

inductive CustomersOutcome where
  | missingShop
  | noToken
  | upstreamError (status : Nat)
  | okJson (rows : List ProjectedCustomer)
deriving DecidableEq

def CustomersOutcome.statusOf : CustomersOutcome → Nat
  | .missingShop => 400
  | .noToken => 401
  | .upstreamError s => s
  | .okJson _ => 200

/-- The `GET /customers` handler.  The second component records whether the
remote resource API was called.  An empty stored token is falsy and also
takes the 401 branch. -/
def customersGet (tokens : TokenMap) (query : Query) (upstream : UpstreamResp) :
    CustomersOutcome × Bool :=
  let shop := shopParam query
  if shop = "" then (.missingShop, false)
  else
    match tokens (JsVal.str shop) with
    | none => (.noToken, false)
    | some t =>
      if t = "" then (.noToken, false)
      else if upstream.ok then (.okJson (upstream.customers.map projectCustomerJson), true)
      else (.upstreamError upstream.status, true)

inductive CsvOutcome where
  | missingShop
  | noToken
  | upstreamError (status : Nat)
  | okCsv (body : String)
deriving DecidableEq

def CsvOutcome.statusOf : CsvOutcome → Nat
  | .missingShop => 400
  | .noToken => 401
  | .upstreamError s => s
  | .okCsv _ => 200

/-- The `GET /customers.csv` handler. -/
def customersCsvGet (tokens : TokenMap) (query : Query) (upstream : UpstreamResp) :
    CsvOutcome × Bool :=
  let shop := shopParam query
  if shop = "" then (.missingShop, false)
  else
    match tokens (JsVal.str shop) with
    | none => (.noToken, false)
    | some t =>
      if t = "" then (.noToken, false)
      else if upstream.ok then
        (.okCsv (toCSV ((upstream.customers.map projectCustomerCsv).map projectedRowPairs)), true)
      else (.upstreamError upstream.status, true)

/-! ## Request traces over the shared token store -/

inductive Event where
  | callbackReq (query : Query) (cookie : Option String) (exch : ExchangeOutcome)
  | customersReq (query : Query) (upstream : UpstreamResp)
  | csvReq (query : Query) (upstream : UpstreamResp)
  | authReq (query : Query) (newState : String)

/-- How one handled request transforms the token store: only the callback
mutates it. -/
def stepTokens (secret : String) (m : TokenMap) : Event → TokenMap
  | .callbackReq q c e => (authCallback secret q c e m).tokens
  | _ => m

/-- The token store after a sequence of requests, starting from the empty
store of process start. -/
def runEvents (secret : String) (es : List Event) : TokenMap :=
  es.foldl (stepTokens secret) tokensEmpty

/-- The conjunction of the three validation gates the callback passes before
issuing the token exchange: truthy `shop`/`code`/`state`, the state-cookie
check, and HMAC verification. -/
def callbackAccepted (secret : String) (q : Query) (cookie : Option String) : Bool :=
  (truthyParam q "shop" && truthyParam q "code" && truthyParam q "state") &&
  stateCheckOk q cookie && verifyHmac secret q

/-! ## Spec-side CSV description

The following definitions follow the wording of the specification of
`toCSV` (first line is the keys of the first row joined by commas; each
subsequent line has one field per header in header order; null/undefined
fields render as empty; a field containing a comma, double quote or newline
is wrapped in double quotes with embedded double quotes doubled), for
comparison with the transcribed `toCSV`. -/

def csvSpecQuote (s : String) : String :=
  if s.data.contains ',' || s.data.contains '"' || s.data.contains '\n' then
    "\"" ++ String.mk (doubleQuotesChars s.data) ++ "\""
  else s

def csvSpecField (row : List (String × JVal)) (h : String) : String :=
  match row.lookup h with
  | none => ""
  | some JVal.jnull => ""
  | some v => csvSpecQuote v.render

def csvSpec (rows : List (List (String × JVal))) : String :=
  match rows with
  | [] => ""
  | r :: rs =>
    let headers := r.map Prod.fst
    String.intercalate "\n"
      (String.intercalate "," headers ::
        (r :: rs).map (fun row => String.intercalate "," (headers.map (csvSpecField row))))

/-- A concrete accepted callback query (its `hmac` is the digest of
`code=abc&shop=x.myshopify.com&state=st77` under secret `shhh`), used to
instantiate theorems with hypotheses. -/
def cbDemoQuery : Query :=
  [("code", JsVal.str "abc"), ("shop", JsVal.str "x.myshopify.com"),
   ("state", JsVal.str "st77"),
   ("hmac", JsVal.str "3fe8b63f8ae25dc15b4734b189adcff3ecb5e05afb392fe5e6b1aa845bb47569")]

/-- A concrete upstream customer record, used to instantiate theorems with
hypotheses. -/
def demoCustomer : Customer :=
  ⟨JVal.jnum 7, JVal.jstr "2024-01-01", JVal.jstr "2024-02-02", JVal.jstr "Ann",
   JVal.jstr "Lee", JVal.jnum 2, JVal.jstr "enabled", JVal.jstr "9.50", JVal.jnull,
   JVal.jnull, JVal.jstr "vip", JVal.jstr "ann@example.com", JVal.jnull, JVal.jstr "USD",
   [⟨some "1 Main St", none, some "Springfield", none, some "12345", some "US"⟩]⟩

/-- A concrete successful upstream response carrying `demoCustomer`. -/
def demoUpstream : UpstreamResp := ⟨true, 200, [demoCustomer], none⟩

/-! ## General lemmas -/

theorem hashStateBytes_length (st : HashState) : (hashStateBytes st).length = 32 := by
  simp [hashStateBytes, wordBytes]

theorem sha256_length (msg : List Nat) : (sha256 msg).length = 32 := by
  unfold sha256
  exact hashStateBytes_length _

theorem hmacSha256_length (key msg : List Nat) : (hmacSha256 key msg).length = 32 := by
  unfold hmacSha256
  exact sha256_length _

theorem hashStateBytes_lt (st : HashState) : ∀ b ∈ hashStateBytes st, b < 256 := by
  intro b hb
  simp [hashStateBytes, wordBytes] at hb
  rcases hb with rfl|rfl|rfl|rfl|rfl|rfl|rfl|rfl|rfl|rfl|rfl|rfl|rfl|rfl|rfl|rfl|
    rfl|rfl|rfl|rfl|rfl|rfl|rfl|rfl|rfl|rfl|rfl|rfl|rfl|rfl|rfl|rfl <;>
    exact Nat.mod_lt _ (by norm_num)

theorem sha256_bytes_lt (msg : List Nat) : ∀ b ∈ sha256 msg, b < 256 := by
  unfold sha256
  exact hashStateBytes_lt _

theorem hmacSha256_bytes_lt (key msg : List Nat) : ∀ b ∈ hmacSha256 key msg, b < 256 := by
  unfold hmacSha256
  exact sha256_bytes_lt _

theorem hexVal_hexDigitChar : ∀ d, d < 16 → hexVal (hexDigitChar d) = some d := by decide

theorem bufferFromHexList_bytesToHexList (bs : List Nat) (h : ∀ b ∈ bs, b < 256) :
    bufferFromHexList (bytesToHexList bs) = bs := by
  induction bs with
  | nil => rfl
  | cons b bs ih =>
    have hb : b < 256 := h b (List.mem_cons_self _ _)
    have hdiv : b / 16 < 16 := Nat.div_lt_of_lt_mul (by omega)
    have hmod : b % 16 < 16 := Nat.mod_lt _ (by norm_num)
    simp only [bytesToHexList, bufferFromHexList,
      hexVal_hexDigitChar _ hdiv, hexVal_hexDigitChar _ hmod]
    rw [ih (fun x hx => h x (List.mem_cons_of_mem _ hx))]
    rw [Nat.div_add_mod b 16]

theorem bufferFromHex_bytesToHex (bs : List Nat) (h : ∀ b ∈ bs, b < 256) :
    bufferFromHex (bytesToHex bs) = bs := by
  simpa [bufferFromHex, bytesToHex] using bufferFromHexList_bytesToHexList bs h

/-- Characterization of `verifyHmac`: it returns true exactly when the
`hmac` parameter is present and truthy and its hex decoding (Node
semantics: case-insensitive, truncating at the first invalid character)
equals the digest bytes of the canonical message. -/
theorem verifyHmac_true_iff (secret : String) (q : Query) :
    verifyHmac secret q = true ↔
    ∃ hv, q.lookup "hmac" = some hv ∧ hv ≠ JsVal.str "" ∧
      bufferFromHex hv.toStr =
        hmacSha256 (strBytes secret) (strBytes (canonicalMessage q)) := by
  unfold verifyHmac
  cases hq : q.lookup "hmac" with
  | none => simp
  | some hv =>
    by_cases he : hv = JsVal.str ""
    · subst he
      simp
    · simp only [he, if_false]
      rw [bufferFromHex_bytesToHex _ (hmacSha256_bytes_lt _ _)]
      constructor
      · intro h
        refine ⟨hv, rfl, he, ?_⟩
        by_cases hl : (hmacSha256 (strBytes secret) (strBytes (canonicalMessage q))).length
            = (bufferFromHex hv.toStr).length
        · rw [if_pos hl] at h
          exact (beq_iff_eq.mp h).symm
        · rw [if_neg hl] at h
          exact absurd h (by simp)
      · rintro ⟨hv', hsome, hne, heq⟩
        obtain rfl : hv' = hv := by injection hsome with h; exact h.symm
        rw [heq]
        simp

theorem authCallback_of_stateFail (secret : String) (q : Query) (cookie : Option String)
    (exch : ExchangeOutcome) (m : TokenMap) (h : stateCheckOk q cookie = false) :
    authCallback secret q cookie exch m = ⟨400, false, m, none⟩ := by
  unfold authCallback
  cases h1 : (truthyParam q "shop" && truthyParam q "code" && truthyParam q "state") <;>
    simp [h, h1]

theorem authCallback_of_hmacFail (secret : String) (q : Query) (cookie : Option String)
    (exch : ExchangeOutcome) (m : TokenMap) (h : verifyHmac secret q = false) :
    authCallback secret q cookie exch m = ⟨400, false, m, none⟩ := by
  unfold authCallback
  cases h1 : (truthyParam q "shop" && truthyParam q "code" && truthyParam q "state") <;>
    cases h2 : stateCheckOk q cookie <;> simp [h, h1, h2]

theorem authCallback_exchanged_validates (secret : String) (q : Query)
    (cookie : Option String) (exch : ExchangeOutcome) (m : TokenMap)
    (h : (authCallback secret q cookie exch m).exchanged = true) :
    (truthyParam q "shop" && truthyParam q "code" && truthyParam q "state") = true ∧
    stateCheckOk q cookie = true ∧ verifyHmac secret q = true := by
  by_cases h1 : (truthyParam q "shop" && truthyParam q "code" && truthyParam q "state") = true
  · by_cases h2 : stateCheckOk q cookie = true
    · by_cases h3 : verifyHmac secret q = true
      · exact ⟨h1, h2, h3⟩
      · rw [authCallback_of_hmacFail secret q cookie exch m (by simpa using h3)] at h
        simp at h
    · rw [authCallback_of_stateFail secret q cookie exch m (by simpa using h2)] at h
      simp at h
  · unfold authCallback at h
    rw [if_neg h1] at h
    simp at h

/-- Output token store of the callback, as one expression: unchanged unless
all validations pass and the exchange succeeds, in which case the token is
stored under the raw `shop` value. -/
theorem authCallback_tokens_char (secret : String) (q : Query) (cookie : Option String)
    (exch : ExchangeOutcome) (m : TokenMap) :
    (authCallback secret q cookie exch m).tokens =
      if callbackAccepted secret q cookie = true then
        (match exch with
         | .ok tok => tokensSet m ((q.lookup "shop").getD (JsVal.str "")) tok
         | _ => m)
      else m := by
  unfold authCallback callbackAccepted
  cases h1 : (truthyParam q "shop" && truthyParam q "code" && truthyParam q "state") <;>
    cases h2 : stateCheckOk q cookie <;>
    cases h3 : verifyHmac secret q <;>
    cases exch <;> simp [h1, h2, h3]

/-- Any entry of the token store after a run of requests either was present
at the start or was written by an accepted callback whose exchange returned
that token. -/
theorem foldl_tokens_origin (secret : String) :
    ∀ (es : List Event) (m : TokenMap) (k : JsVal) (t : String),
      (es.foldl (stepTokens secret) m) k = some t →
      m k = some t ∨
      ∃ q cookie, Event.callbackReq q cookie (ExchangeOutcome.ok t) ∈ es ∧
        callbackAccepted secret q cookie = true ∧
        (q.lookup "shop").getD (JsVal.str "") = k := by
  intro es
  induction es with
  | nil =>
    intro m k t h
    exact Or.inl h
  | cons e es ih =>
    intro m k t h
    simp only [List.foldl_cons] at h
    rcases ih _ k t h with h' | ⟨q, c, mem, acc, key⟩
    · cases e with
      | callbackReq q c ex =>
        simp only [stepTokens] at h'
        rw [authCallback_tokens_char] at h'
        by_cases hacc : callbackAccepted secret q c = true
        · rw [if_pos hacc] at h'
          cases ex with
          | ok tok =>
            have h'' : (if k = (q.lookup "shop").getD (JsVal.str "") then some tok else m k)
                = some t := h'
            by_cases hk : k = (q.lookup "shop").getD (JsVal.str "")
            · rw [if_pos hk] at h''
              obtain rfl : tok = t := by injection h''
              exact Or.inr ⟨q, c, List.mem_cons_self _ _, hacc, hk.symm⟩
            · rw [if_neg hk] at h''
              exact Or.inl h''
          | httpError b => exact Or.inl h'
          | netError msg => exact Or.inl h'
        · rw [if_neg hacc] at h'
          exact Or.inl h'
      | customersReq q u => exact Or.inl h'
      | csvReq q u => exact Or.inl h'
      | authReq q s => exact Or.inl h'
    · exact Or.inr ⟨q, c, List.mem_cons_of_mem _ mem, acc, key⟩

/-! ## Claim theorems -/

/-- C1: the callback issues the token-exchange POST only if state validation
and HMAC verification both succeeded for that request; if either fails the
handler returns a 400 response without performing the exchange. -/
theorem callback_exchange_requires_validation
    (secret : String) (q : Query) (cookie : Option String)
    (exch : ExchangeOutcome) (m : TokenMap) :
    ((authCallback secret q cookie exch m).exchanged = true →
      stateCheckOk q cookie = true ∧ verifyHmac secret q = true) ∧
    (stateCheckOk q cookie = false ∨ verifyHmac secret q = false →
      (authCallback secret q cookie exch m).status = 400 ∧
      (authCallback secret q cookie exch m).exchanged = false) := by
  constructor
  · intro h
    exact (authCallback_exchanged_validates secret q cookie exch m h).2
  · intro h
    rcases h with h | h
    · rw [authCallback_of_stateFail secret q cookie exch m h]
      exact ⟨rfl, rfl⟩
    · rw [authCallback_of_hmacFail secret q cookie exch m h]
      exact ⟨rfl, rfl⟩

/-- Witness for C1: a callback with no state cookie is answered 400 and the
exchange is not performed. -/
theorem callback_exchange_requires_validation_witness :
    (authCallback "shhh" cbDemoQuery none (ExchangeOutcome.ok "tok") tokensEmpty).status = 400 ∧
    (authCallback "shhh" cbDemoQuery none (ExchangeOutcome.ok "tok") tokensEmpty).exchanged = false :=
  (callback_exchange_requires_validation "shhh" cbDemoQuery none (ExchangeOutcome.ok "tok")
    tokensEmpty).2 (Or.inl (by decide))

/-- C4 (amended): a `GET /auth` whose shop parameter, after string coercion
and trimming, fails the shop-domain regex is answered 400 with no state
cookie set and no redirect constructed. -/
theorem auth_rejects_invalid_shop
    (apiKey scopes appUrl : String) (q : Query) (newState : String)
    (h : isValidShop (shopParam q) = false) :
    authGet apiKey scopes appUrl q newState = ⟨400, none, none⟩ := by
  unfold authGet
  by_cases h0 : shopParam q = ""
  · rw [if_pos h0]
  · rw [if_neg h0, if_neg (by simp [h])]

/-- Counterexample to C4 as stated: the raw shop parameter
`" x.myshopify.com"` does not match the regex (leading space), yet the
handler trims it, sets the state cookie and redirects with 302. -/
theorem auth_redirects_untrimmed_shop :
    isValidShop " x.myshopify.com" = false ∧
    (authGet "key" "read_customers" "https://app.example.com"
      [("shop", JsVal.str " x.myshopify.com")] "st1").status = 302 ∧
    (authGet "key" "read_customers" "https://app.example.com"
      [("shop", JsVal.str " x.myshopify.com")] "st1").cookie = some "st1" := by
  refine ⟨by decide, by decide, by decide⟩

/-- Witness for C4: `/auth?shop=not-a-shop` is answered 400 with no cookie
and no redirect. -/
theorem auth_rejects_invalid_shop_witness :
    isValidShop (shopParam [("shop", JsVal.str "not-a-shop")]) = false ∧
    authGet "key" "read_customers" "https://app.example.com"
      [("shop", JsVal.str "not-a-shop")] "st1" = ⟨400, none, none⟩ :=
  ⟨by decide, auth_rejects_invalid_shop _ _ _ _ _ (by decide)⟩

/-- C5: the callback state validation passes exactly when the cookie token
is present, non-empty and exactly string-equal to the callback `state`;
whenever it fails, the callback is answered 400 without an exchange. -/
theorem state_validation_exact_equality (q : Query) (cookie : Option String) :
    (stateCheckOk q cookie = true ↔
      ∃ s, cookie = some s ∧ s ≠ "" ∧ q.lookup "state" = some (JsVal.str s)) ∧
    (∀ (secret : String) (exch : ExchangeOutcome) (m : TokenMap),
      stateCheckOk q cookie = false →
      (authCallback secret q cookie exch m).status = 400 ∧
      (authCallback secret q cookie exch m).exchanged = false) := by
  constructor
  · cases cookie with
    | none => simp [stateCheckOk]
    | some c =>
      simp only [stateCheckOk, Bool.and_eq_true, bne_iff_ne, ne_eq, beq_iff_eq]
      constructor
      · rintro ⟨hne, hl⟩
        exact ⟨c, rfl, hne, hl⟩
      · rintro ⟨s, hs, hne, hl⟩
        obtain rfl : s = c := by injection hs with h; exact h.symm
        exact ⟨hne, hl⟩
  · intro secret exch m h
    rw [authCallback_of_stateFail secret q cookie exch m h]
    exact ⟨rfl, rfl⟩

/-- Witness for C5: equal non-empty tokens validate; an absent cookie is
answered 400. -/
theorem state_validation_exact_equality_witness :
    stateCheckOk [("state", JsVal.str "st77")] (some "st77") = true ∧
    (authCallback "shhh" cbDemoQuery none (ExchangeOutcome.httpError "e") tokensEmpty).status = 400 ∧
    (authCallback "shhh" cbDemoQuery none (ExchangeOutcome.httpError "e") tokensEmpty).exchanged = false :=
  ⟨(state_validation_exact_equality [("state", JsVal.str "st77")] (some "st77")).1.mpr
      ⟨"st77", rfl, by decide, by decide⟩,
   (state_validation_exact_equality cbDemoQuery none).2 "shhh" (ExchangeOutcome.httpError "e")
      tokensEmpty (by decide)⟩

/-- C2 (amended): the canonical message excludes `hmac`/`signature`, sorts
the remaining keys, joins arrays with commas and pairs with `&` — on the
golden vector it is `a=1&b=2` — and `verifyHmac` with secret `shhh` accepts
exactly the signatures whose hex decoding (Node semantics: case-insensitive
and truncating at the first invalid character) equals the HMAC-SHA256
digest bytes of `a=1&b=2`. -/
theorem verify_golden_vector_iff :
    canonicalMessage [("a", JsVal.str "1"), ("b", JsVal.str "2")] = "a=1&b=2" ∧
    (∀ (q : Query) (v w : JsVal),
      canonicalMessage (q ++ [("hmac", v), ("signature", w)]) = canonicalMessage q) ∧
    canonicalMessage [("ids", JsVal.arr ["7", "8"]), ("a", JsVal.str "1")] = "a=1&ids=7,8" ∧
    (∀ sig : String,
      verifyHmac "shhh"
        [("a", JsVal.str "1"), ("b", JsVal.str "2"), ("hmac", JsVal.str sig)] = true ↔
      bufferFromHex sig = hmacSha256 (strBytes "shhh") (strBytes "a=1&b=2")) := by
  refine ⟨by decide, ?_, by decide, ?_⟩
  · intro q v w
    have hnil : queryRest [("hmac", v), ("signature", w)] = [] := rfl
    have h : queryRest (q ++ [("hmac", v), ("signature", w)]) = queryRest q := by
      unfold queryRest at hnil ⊢
      rw [List.filter_append, hnil, List.append_nil]
    unfold canonicalMessage
    rw [h]
  · intro sig
    have hmsg : canonicalMessage
        [("a", JsVal.str "1"), ("b", JsVal.str "2"), ("hmac", JsVal.str sig)] = "a=1&b=2" := rfl
    have hlook : List.lookup "hmac"
        [("a", JsVal.str "1"), ("b", JsVal.str "2"), ("hmac", JsVal.str sig)]
        = some (JsVal.str sig) := rfl
    rw [verifyHmac_true_iff, hmsg, hlook]
    constructor
    · rintro ⟨hv, hsome, hne, heq⟩
      obtain rfl : hv = JsVal.str sig := by injection hsome with h; exact h.symm
      exact heq
    · intro h
      refine ⟨JsVal.str sig, rfl, ?_, h⟩
      intro hc
      obtain rfl : sig = "" := by injection hc
      have hlen := hmacSha256_length (strBytes "shhh") (strBytes "a=1&b=2")
      rw [← h] at hlen
      simp [bufferFromHex, bufferFromHexList] at hlen

/-- Counterexample to C2 as stated: the uppercase rendering of the golden
digest is not the digest string, yet `verifyHmac` accepts it (hex decoding
is case-insensitive). -/
theorem verify_accepts_noncanonical_hex :
    verifyHmac "shhh"
      [("a", JsVal.str "1"), ("b", JsVal.str "2"),
       ("hmac", JsVal.str "6A963707870B020AC6CEA4E67EB7D14A9F19782416F38BB6333A6EAF6BE453C3")] = true ∧
    "6A963707870B020AC6CEA4E67EB7D14A9F19782416F38BB6333A6EAF6BE453C3" ≠
      bytesToHex (hmacSha256 (strBytes "shhh") (strBytes (canonicalMessage
        [("a", JsVal.str "1"), ("b", JsVal.str "2"),
         ("hmac", JsVal.str "6A963707870B020AC6CEA4E67EB7D14A9F19782416F38BB6333A6EAF6BE453C3")]))) := by
  exact ⟨by decide, by decide⟩

/-- C3 (amended): `verifyHmac` (a total function — the length check precedes
the constant-time comparison, and Node's hex decoder never throws) returns
false when the `hmac` parameter is absent or empty, and when the hex
decoding of the supplied signature differs in length from the 32-byte
digest. -/
theorem verify_false_on_absent_or_length_mismatch
    (secret : String) (q : Query) :
    (q.lookup "hmac" = none → verifyHmac secret q = false) ∧
    (q.lookup "hmac" = some (JsVal.str "") → verifyHmac secret q = false) ∧
    (∀ hv, q.lookup "hmac" = some hv →
      (bufferFromHex hv.toStr).length ≠ 32 → verifyHmac secret q = false) := by
  refine ⟨?_, ?_, ?_⟩
  · intro h
    cases hb : verifyHmac secret q
    · rfl
    · obtain ⟨hv, h1, _, _⟩ := (verifyHmac_true_iff secret q).mp hb
      rw [h] at h1
      exact absurd h1 (by simp)
  · intro h
    cases hb : verifyHmac secret q
    · rfl
    · obtain ⟨hv, h1, h2, _⟩ := (verifyHmac_true_iff secret q).mp hb
      rw [h] at h1
      obtain rfl : hv = JsVal.str "" := by injection h1 with hx; exact hx.symm
      exact absurd rfl h2
  · intro hv h hlen
    cases hb : verifyHmac secret q
    · rfl
    · obtain ⟨hv', h1, _, h3⟩ := (verifyHmac_true_iff secret q).mp hb
      rw [h] at h1
      obtain rfl : hv' = hv := by injection h1 with hx; exact hx.symm
      exact absurd (by rw [h3]; exact hmacSha256_length _ _) hlen

/-- Counterexample to C3 as stated: a malformed (non-hex) signature — the
golden digest with trailing `zz` — still verifies, because hex decoding
truncates at the first invalid character. -/
theorem verify_true_on_malformed_hex :
    ("6a963707870b020ac6cea4e67eb7d14a9f19782416f38bb6333a6eaf6be453c3zz".data.all
        (fun c => (hexVal c).isSome) = false) ∧
    verifyHmac "shhh"
      [("a", JsVal.str "1"), ("b", JsVal.str "2"),
       ("hmac", JsVal.str "6a963707870b020ac6cea4e67eb7d14a9f19782416f38bb6333a6eaf6be453c3zz")]
      = true := by
  exact ⟨by decide, by decide⟩

/-- Witness for C3: an absent, an empty, and a short signature are all
rejected. -/
theorem verify_false_on_absent_or_length_mismatch_witness :
    verifyHmac "shhh" [("a", JsVal.str "1")] = false ∧
    verifyHmac "shhh" [("hmac", JsVal.str ""), ("a", JsVal.str "1")] = false ∧
    verifyHmac "shhh" [("a", JsVal.str "1"), ("hmac", JsVal.str "abcd")] = false :=
  ⟨(verify_false_on_absent_or_length_mismatch "shhh" [("a", JsVal.str "1")]).1 (by decide),
   (verify_false_on_absent_or_length_mismatch "shhh"
      [("hmac", JsVal.str ""), ("a", JsVal.str "1")]).2.1 (by decide),
   (verify_false_on_absent_or_length_mismatch "shhh"
      [("a", JsVal.str "1"), ("hmac", JsVal.str "abcd")]).2.2
      (JsVal.str "abcd") (by decide) (by decide)⟩

/-- C6: a request whose token exchange is not a success response leaves the
token store unchanged, and any entry present in a reachable token store was
written by an accepted callback whose exchange succeeded with that token
for that tenant key. -/
theorem tokens_only_from_successful_exchange :
    (∀ (secret : String) (q : Query) (cookie : Option String)
       (exch : ExchangeOutcome) (m : TokenMap),
      (∀ tok, exch ≠ ExchangeOutcome.ok tok) →
      (authCallback secret q cookie exch m).tokens = m) ∧
    (∀ (secret : String) (es : List Event) (k : JsVal) (t : String),
      runEvents secret es k = some t →
      ∃ q cookie, Event.callbackReq q cookie (ExchangeOutcome.ok t) ∈ es ∧
        callbackAccepted secret q cookie = true ∧
        (q.lookup "shop").getD (JsVal.str "") = k) := by
  constructor
  · intro secret q cookie exch m hne
    rw [authCallback_tokens_char]
    cases exch with
    | ok tok => exact absurd rfl (hne tok)
    | httpError b => cases hacc : callbackAccepted secret q cookie <;> simp [hacc]
    | netError msg => cases hacc : callbackAccepted secret q cookie <;> simp [hacc]
  · intro secret es k t h
    rcases foldl_tokens_origin secret es tokensEmpty k t h with h' | hex
    · exact absurd h' (by simp [tokensEmpty])
    · exact hex

/-- Witness for C6: a failed exchange stores nothing; the token stored by an
accepted callback originates from its successful exchange. -/
theorem tokens_only_from_successful_exchange_witness :
    (authCallback "shhh" cbDemoQuery (some "st77") (ExchangeOutcome.httpError "denied")
        tokensEmpty).tokens = tokensEmpty ∧
    (∃ q cookie,
       Event.callbackReq q cookie (ExchangeOutcome.ok "tok")
         ∈ [Event.callbackReq cbDemoQuery (some "st77") (ExchangeOutcome.ok "tok")] ∧
       callbackAccepted "shhh" q cookie = true ∧
       (q.lookup "shop").getD (JsVal.str "") = JsVal.str "x.myshopify.com") :=
  ⟨tokens_only_from_successful_exchange.1 "shhh" cbDemoQuery (some "st77")
      (ExchangeOutcome.httpError "denied") tokensEmpty
      (fun tok h => ExchangeOutcome.noConfusion h),
   tokens_only_from_successful_exchange.2 "shhh"
      [Event.callbackReq cbDemoQuery (some "st77") (ExchangeOutcome.ok "tok")]
      (JsVal.str "x.myshopify.com") "tok" (by decide)⟩

/-- C7: an accepted callback whose exchange returns a token overwrites that
tenant's stored credential and leaves every other key of the store
unchanged. -/
theorem reauthorization_overwrites_token
    (secret : String) (q : Query) (cookie : Option String) (tok : String) (m : TokenMap)
    (hacc : callbackAccepted secret q cookie = true) :
    ((authCallback secret q cookie (ExchangeOutcome.ok tok) m).tokens
        ((q.lookup "shop").getD (JsVal.str "")) = some tok) ∧
    (∀ k, k ≠ (q.lookup "shop").getD (JsVal.str "") →
      (authCallback secret q cookie (ExchangeOutcome.ok tok) m).tokens k = m k) := by
  rw [authCallback_tokens_char, if_pos hacc]
  constructor
  · show tokensSet m ((q.lookup "shop").getD (JsVal.str "")) tok
        ((q.lookup "shop").getD (JsVal.str "")) = some tok
    unfold tokensSet
    rw [if_pos rfl]
  · intro k hk
    show tokensSet m ((q.lookup "shop").getD (JsVal.str "")) tok k = m k
    unfold tokensSet
    rw [if_neg hk]

/-- Witness for C7: re-running the accepted demo callback over a store that
already holds a credential for the tenant replaces it. -/
theorem reauthorization_overwrites_token_witness :
    ((authCallback "shhh" cbDemoQuery (some "st77") (ExchangeOutcome.ok "newTok")
        (tokensSet tokensEmpty (JsVal.str "x.myshopify.com") "oldTok")).tokens
        ((cbDemoQuery.lookup "shop").getD (JsVal.str "")) = some "newTok") ∧
    (∀ k, k ≠ (cbDemoQuery.lookup "shop").getD (JsVal.str "") →
      (authCallback "shhh" cbDemoQuery (some "st77") (ExchangeOutcome.ok "newTok")
        (tokensSet tokensEmpty (JsVal.str "x.myshopify.com") "oldTok")).tokens k =
      tokensSet tokensEmpty (JsVal.str "x.myshopify.com") "oldTok" k) :=
  reauthorization_overwrites_token "shhh" cbDemoQuery (some "st77") "newTok"
    (tokensSet tokensEmpty (JsVal.str "x.myshopify.com") "oldTok") (by decide)

/-- C8: a data request naming a tenant with no stored credential is answered
with the 401 auth-required outcome without calling the remote API, on both
endpoints; that outcome is distinct from the 400 missing-parameter outcome
and from every upstream-failure outcome. -/
theorem unauthenticated_tenant_distinct_401
    (tokens : TokenMap) (q : Query) (upstream : UpstreamResp) :
    (shopParam q ≠ "" → tokens (JsVal.str (shopParam q)) = none →
      customersGet tokens q upstream = (CustomersOutcome.noToken, false) ∧
      customersCsvGet tokens q upstream = (CsvOutcome.noToken, false)) ∧
    (shopParam q = "" →
      customersGet tokens q upstream = (CustomersOutcome.missingShop, false) ∧
      customersCsvGet tokens q upstream = (CsvOutcome.missingShop, false)) ∧
    CustomersOutcome.noToken.statusOf = 401 ∧
    CustomersOutcome.missingShop.statusOf = 400 ∧
    CustomersOutcome.noToken ≠ CustomersOutcome.missingShop ∧
    (∀ s, CustomersOutcome.noToken ≠ CustomersOutcome.upstreamError s) ∧
    CsvOutcome.noToken.statusOf = 401 ∧
    CsvOutcome.missingShop.statusOf = 400 ∧
    CsvOutcome.noToken ≠ CsvOutcome.missingShop ∧
    (∀ s, CsvOutcome.noToken ≠ CsvOutcome.upstreamError s) := by
  refine ⟨?_, ?_, rfl, rfl, fun h => CustomersOutcome.noConfusion h,
    fun s h => CustomersOutcome.noConfusion h, rfl, rfl,
    fun h => CsvOutcome.noConfusion h, fun s h => CsvOutcome.noConfusion h⟩
  · intro h0 h1
    constructor
    · simp [customersGet, h0, h1]
    · simp [customersCsvGet, h0, h1]
  · intro h0
    exact ⟨by simp [customersGet, h0], by simp [customersCsvGet, h0]⟩

/-- Witness for C8: both endpoints answer 401 without an upstream call for a
tenant absent from the empty store. -/
theorem unauthenticated_tenant_distinct_401_witness :
    customersGet tokensEmpty [("shop", JsVal.str "x.myshopify.com")] demoUpstream
        = (CustomersOutcome.noToken, false) ∧
    customersCsvGet tokensEmpty [("shop", JsVal.str "x.myshopify.com")] demoUpstream
        = (CsvOutcome.noToken, false) :=
  (unauthenticated_tenant_distinct_401 tokensEmpty
    [("shop", JsVal.str "x.myshopify.com")] demoUpstream).1 (by decide) (by decide)

/-- C9: the JSON and CSV endpoints apply the identical per-record projection;
in particular, whenever `/customers` succeeds with a row list,
`/customers.csv` on the same inputs succeeds with exactly the CSV rendering
of those rows. -/
theorem json_csv_projection_agree :
    (∀ c : Customer, projectCustomerJson c = projectCustomerCsv c) ∧
    (∀ (tokens : TokenMap) (q : Query) (upstream : UpstreamResp)
       (rows : List ProjectedCustomer),
      customersGet tokens q upstream = (CustomersOutcome.okJson rows, true) →
      customersCsvGet tokens q upstream =
        (CsvOutcome.okCsv (toCSV (rows.map projectedRowPairs)), true)) := by
  constructor
  · intro c
    rfl
  · intro tokens q upstream rows h
    unfold customersGet at h
    unfold customersCsvGet
    by_cases h0 : shopParam q = ""
    · rw [if_pos h0] at h
      exact absurd h (by simp)
    · rw [if_neg h0] at h
      rw [if_neg h0]
      cases ht : tokens (JsVal.str (shopParam q)) with
      | none =>
        simp only [ht] at h
        exact absurd h (by simp)
      | some t =>
        simp only [ht] at h
        by_cases hte : t = ""
        · rw [if_pos hte] at h
          exact absurd h (by simp)
        · rw [if_neg hte] at h
          by_cases hok : upstream.ok = true
          · rw [if_pos hok] at h
            have h1 : CustomersOutcome.okJson (upstream.customers.map projectCustomerJson)
                = CustomersOutcome.okJson rows := congrArg Prod.fst h
            have h2 : upstream.customers.map projectCustomerJson = rows := by
              injection h1
            subst h2
            have hpc : projectCustomerCsv = projectCustomerJson := rfl
            simp [hte, hok, hpc]
          · rw [if_neg hok] at h
            exact absurd h (by simp)

/-- Witness for C9: on a one-customer upstream response the CSV endpoint
returns exactly the CSV of the JSON endpoint's rows. -/
theorem json_csv_projection_agree_witness :
    customersCsvGet (tokensSet tokensEmpty (JsVal.str "x.myshopify.com") "tok")
        [("shop", JsVal.str "x.myshopify.com")] demoUpstream =
      (CsvOutcome.okCsv
        (toCSV ((demoUpstream.customers.map projectCustomerJson).map projectedRowPairs)), true) :=
  json_csv_projection_agree.2 (tokensSet tokensEmpty (JsVal.str "x.myshopify.com") "tok")
    [("shop", JsVal.str "x.myshopify.com")] demoUpstream
    (demoUpstream.customers.map projectCustomerJson) (by decide)

/-- `toCSV`'s field rendering agrees with the spec-side field rendering. -/
theorem escapeCSV_eq_csvSpecField (row : List (String × JVal)) (h : String) :
    escapeCSV (row.lookup h) = csvSpecField row h := by
  unfold csvSpecField
  cases hl : row.lookup h with
  | none => rfl
  | some v => cases v <;> rfl

/-- C10: `toCSV` agrees with the specification's description on every row
list: empty input gives the empty string, the first line is the first row's
keys joined by commas, each row is rendered per header with null/undefined
empty and fields containing comma, quote or newline quoted with doubling. -/
theorem toCSV_matches_spec (rows : List (List (String × JVal))) :
    toCSV rows = csvSpec rows := by
  cases rows with
  | nil => rfl
  | cons r rs =>
    unfold toCSV csvSpec
    simp only [escapeCSV_eq_csvSpecField]

/-! ## Test vectors validating the crypto embedding -/

/-- SHA-256 test vector: the hash of `"abc"`. -/
theorem sha256_abc :
    bytesToHex (sha256 (strBytes "abc")) =
    "ba7816bf8f01cfea414140de5dae2223b00361a396177a9cb410ff61f20015ad" := by decide

/-- SHA-256 test vector: the hash of the empty message. -/
theorem sha256_empty :
    bytesToHex (sha256 []) =
    "e3b0c44298fc1c149afbf4c8996fb92427ae41e4649b934ca495991b7852b855" := by decide

/-- HMAC golden vector used by the spec (secret `shhh`, message `a=1&b=2`). -/
theorem hmac_golden :
    bytesToHex (hmacSha256 (strBytes "shhh") (strBytes "a=1&b=2")) =
    "6a963707870b020ac6cea4e67eb7d14a9f19782416f38bb6333a6eaf6be453c3" := by decide

/-- The exact golden digest, supplied as the `hmac` parameter, verifies. -/
theorem verify_golden :
    verifyHmac "shhh"
      [("a", JsVal.str "1"), ("b", JsVal.str "2"),
       ("hmac", JsVal.str "6a963707870b020ac6cea4e67eb7d14a9f19782416f38bb6333a6eaf6be453c3")]
      = true := by decide
